import Mathlib

/-!
A shallow embedding of the timekeeping core of the `credits` kernel
(`src/time.rs` and `src/interrupts.rs`), together with theorems settling
the specified properties of the calibration protocol, the I/O APIC
bring-up, the delay primitives, and the shared tick counter.

Machine integers: `usize` is 64 bits on the x86_64 target, `u32` is 32
bits.  We model both as `Nat` with explicit reduction modulo `2 ^ 64`
(resp. `2 ^ 32`) exactly where the Rust code wraps.
-/

namespace Credits

/-- Modulus of the 64-bit machine word (`usize`). -/
def USIZE_MOD : Nat := 2 ^ 64

/-- Largest `usize` value. -/
def USIZE_MAX : Nat := 2 ^ 64 - 1

/-- Modulus of `u32`. -/
def U32_MOD : Nat := 2 ^ 32

/-- `u32::MAX`, the maximum initial count written to the LAPIC timer. -/
def U32_MAX : Nat := 2 ^ 32 - 1

/-- `Wrapping<usize>` addition, as used by `TIMER`
(`time + Wrapping(1)` in `timer_interrupt_handler`) and by
`SCRATCH_TIMER.wrapping_add(1)`. -/
def wrappingAdd (a b : Nat) : Nat := (a + b) % USIZE_MOD

/-- `Wrapping<usize>` subtraction, as used by every tick-counter
comparison (`get_irq_cnt() - saved`). -/
def wrappingSub (a b : Nat) : Nat :=
  (a % USIZE_MOD + USIZE_MOD - b % USIZE_MOD) % USIZE_MOD

/-- `InterruptIndex` from `src/interrupts.rs`: the two vectors installed
in the IDT for the periodic timer and the calibration scratch timer. -/
inductive InterruptIndex where
  | Timer
  | ScratchTimer
deriving DecidableEq

/-- `InterruptIndex::as_u8` / `as u8` / `as u32` casts: `Timer = 32`
(`PIC_1_OFFSET`), `ScratchTimer = 33`. -/
def InterruptIndex.asU8 : InterruptIndex → Nat
  | .Timer => 32
  | .ScratchTimer => 33

/-- `APIC_TIMER_PERIODIC` flag from `src/time.rs`. -/
def APIC_TIMER_PERIODIC : Nat := 0x20000

/-- `APIC_MASKED` flag (bit 16) from `src/time.rs`. -/
def APIC_MASKED : Nat := 0x10000

/-- LAPIC register offset of the timer local vector table entry. -/
def LAPIC_LVT_TIMER_REG : Nat := 0x320

/-- LAPIC register offset of LINT0. -/
def LAPIC_LVT_LINT0_REG : Nat := 0x350

/-- LAPIC register offset of LINT1. -/
def LAPIC_LVT_LINT1_REG : Nat := 0x360

/-- LAPIC register offset of the timer initial count. -/
def LAPIC_TIMER_INITCNT_REG : Nat := 0x380

/-- LAPIC register offset of the timer current count. -/
def LAPIC_TIMER_CURRCNT_REG : Nat := 0x390

/-- LAPIC register offset of the timer divide configuration. -/
def LAPIC_TIMER_DIV_REG : Nat := 0x3E0

/-- The software-visible state of the Local APIC registers that
`src/time.rs` writes.  The current-count register is hardware driven and
is therefore passed to the calibration function as an oracle instead of
stored here. -/
structure Lapic where
  svr : Nat
  lvtTimer : Nat
  lvtLint0 : Nat
  lvtLint1 : Nat
  timerInitCnt : Nat
  timerDiv : Nat
deriving DecidableEq, Repr

/-- `Lapic::write_register`: a volatile 32-bit store dispatched on the
register offset.  Stores to registers the embedding does not track are
dropped. -/
def Lapic.write_register (l : Lapic) (offset value : Nat) : Lapic :=
  let v := value % U32_MOD
  if offset = LAPIC_LVT_TIMER_REG then { l with lvtTimer := v }
  else if offset = LAPIC_LVT_LINT0_REG then { l with lvtLint0 := v }
  else if offset = LAPIC_LVT_LINT1_REG then { l with lvtLint1 := v }
  else if offset = LAPIC_TIMER_INITCNT_REG then { l with timerInitCnt := v }
  else if offset = LAPIC_TIMER_DIV_REG then { l with timerDiv := v }
  else l

/-- The PIT channel-0 programming performed by `calibrate_apic_timer`:
the command byte sent to port 0x43 and the reload bytes sent to
port 0x40. -/
structure Pit where
  command : Nat
  reloadLo : Nat
  reloadHi : Nat
deriving DecidableEq, Repr

/-- State touched by `calibrate_apic_timer` (`src/time.rs:292-373`):
the LAPIC registers, the PIT ports, the low word of the PIT's I/O APIC
redirection entry (reachable through the `ioapic`/`pitreg` arguments),
the stored calibration constant `APIC_TICKS_IN_10MS`, the global
`TIMER` word, and the interrupt flag. -/
structure CalibState where
  lapic : Lapic
  pit : Pit
  ioapicPitLow : Nat
  apicTicksIn10ms : Nat
  timer : Nat
  interruptsOn : Bool
deriving DecidableEq, Repr

/-- The PIT divider chosen in `calibrate_apic_timer` for a 100 Hz rate
(one IRQ every 10 ms). -/
def pitDivider : Nat := 11932

/-- Step 1 of the calibration protocol: program PIT channel 0 with the
command byte `0b00110100` and the lo/hi bytes of the divider
(`src/time.rs:293-305`).  Nothing else is written; in particular the
I/O APIC redirection entry is not touched. -/
def configurePit (s : CalibState) : CalibState :=
  { s with pit :=
      { command := 0b00110100
        reloadLo := pitDivider % 256
        reloadHi := (pitDivider >>> 8) % 256 } }

/-- Step 2: route the LAPIC timer to the scratch vector and set the
divide value to 16 (`src/time.rs:309-319`). -/
def prepareLapicTimer (s : CalibState) : CalibState :=
  { s with lapic :=
      ((s.lapic.write_register LAPIC_LVT_TIMER_REG
          InterruptIndex.ScratchTimer.asU8).write_register LAPIC_TIMER_DIV_REG 3) }

/-- Steps 1-7 of `calibrate_apic_timer`: program the PIT, prepare the
LAPIC timer, enable interrupts, busy-wait for a PIT edge (a pure read
loop, no state written by this code path), arm the one-shot timer with
`u32::MAX`, busy-wait for the next edge, mask the LAPIC timer, compute
`u32::MAX - current_count` and store it in `APIC_TICKS_IN_10MS`.
`remaining` is the value the current-count register holds when it is
read after the second PIT edge (a `u32`). -/
def calibMeasure (s : CalibState) (remaining : Nat) : CalibState :=
  let s := configurePit s
  let s := prepareLapicTimer s
  let s := { s with interruptsOn := true }
  let s := { s with lapic := s.lapic.write_register LAPIC_TIMER_INITCNT_REG U32_MAX }
  let s := { s with lapic := s.lapic.write_register LAPIC_LVT_TIMER_REG APIC_MASKED }
  let ticks := U32_MAX - remaining % U32_MOD
  let s := { s with interruptsOn := false }
  { s with apicTicksIn10ms := ticks }

/-- Steps 8-9 of `calibrate_apic_timer`: mask the PIT redirection entry
and reprogram the LAPIC timer for periodic mode at the `Timer` vector
with the stored constant as initial count (`src/time.rs:358-372`). -/
def calibRetireAndArm (s : CalibState) : CalibState :=
  let s := { s with ioapicPitLow := APIC_MASKED }
  { s with lapic :=
      ((((s.lapic.write_register LAPIC_LVT_TIMER_REG
            (InterruptIndex.Timer.asU8 ||| APIC_TIMER_PERIODIC)).write_register
          LAPIC_TIMER_INITCNT_REG s.apicTicksIn10ms).write_register
        LAPIC_TIMER_DIV_REG 3)) }

/-- `calibrate_apic_timer` (`src/time.rs:292-373`). -/
def calibrate_apic_timer (s : CalibState) (remaining : Nat) : CalibState :=
  calibRetireAndArm (calibMeasure s remaining)

/-- One I/O APIC redirection-table entry: the low and high 32-bit words
(registers `0x10 + 2*idx` and `0x10 + 2*idx + 1`).  The vector lives in
low bits 0-7, the mask flag is low bit 16, the destination is in the
top bits of the high word. -/
structure RedirEntry where
  low : Nat
  high : Nat
deriving DecidableEq, Repr

/-- One discovered I/O APIC: its global-system-interrupt base and its
redirection entries (the device advertises their number through
`IOAPICVER`; we carry the entries themselves). -/
structure IoApicDev where
  base : Nat
  entries : List RedirEntry
deriving DecidableEq, Repr

/-- The redirection entry `init_ioapic` writes for the PIT: the low
word holds just the `Timer` vector (every other flag, the mask
included, is zero), and the high word holds the boot processor's local
APIC id shifted into the destination field (`bsp_acpi_id <<= 56 - 32`,
a `u32` shift). -/
def timerRedirEntry (bsp : Nat) : RedirEntry :=
  { low := InterruptIndex.Timer.asU8, high := (bsp <<< 24) % U32_MOD }

/-- The update `init_ioapic` applies to every non-matching entry:
`update_register(reg, |v| v | 1 << 16)`, i.e. set the mask bit of the
low word, leaving the high word alone. -/
def maskEntry (e : RedirEntry) : RedirEntry :=
  { e with low := (e.low ||| 1 <<< 16) % U32_MOD }

/-- The body of the `for idx in 0..max_redir_count` loop of
`init_ioapic` (`src/time.rs:249-271`) for the entry at `idx`. -/
def progEntry (e : RedirEntry) (idx base ov bsp : Nat) : RedirEntry :=
  if idx + base = ov then timerRedirEntry bsp else maskEntry e

/-- The `init_ioapic` inner loop over one I/O APIC's redirection
entries, carrying the running index. -/
def progEntries (base ov bsp : Nat) : Nat → List RedirEntry → List RedirEntry
  | _, [] => []
  | idx, e :: rest => progEntry e idx base ov bsp :: progEntries base ov bsp (idx + 1) rest

/-- Effect of `init_ioapic` on a single I/O APIC. -/
def IoApicDev.program (d : IoApicDev) (ov bsp : Nat) : IoApicDev :=
  { d with entries := progEntries d.base ov bsp 0 d.entries }

/-- `init_ioapic` (`src/time.rs:211-275`): iterate over every
discovered I/O APIC and program every redirection entry; `ov` is the
global system interrupt the ISA IRQ 0 override points at, `bsp` the
boot processor's local APIC id. -/
def init_ioapic (apics : List IoApicDev) (ov bsp : Nat) : List IoApicDev :=
  apics.map (fun d => d.program ov bsp)

/-- Flatten the redirection tables of a list of I/O APICs, tagging each
entry with its global interrupt number `base + idx`. -/
def gsiEntries (base : Nat) : Nat → List RedirEntry → List (Nat × RedirEntry)
  | _, [] => []
  | idx, e :: rest => (base + idx, e) :: gsiEntries base (idx + 1) rest

/-- All redirection entries of all I/O APICs with their global
interrupt numbers. -/
def redirTable : List IoApicDev → List (Nat × RedirEntry)
  | [] => []
  | d :: rest => gsiEntries d.base 0 d.entries ++ redirTable rest

/-- `core::time::Duration`, reduced to its total length in
nanoseconds (Rust stores 64-bit seconds plus sub-second nanoseconds;
`as_micros`/`as_millis` are exact 128-bit divisions of the total). -/
structure Duration where
  nanos : Nat
deriving DecidableEq, Repr

/-- `Duration::as_micros`. -/
def Duration.as_micros (d : Duration) : Nat := d.nanos / 1000

/-- `Duration::as_millis`. -/
def Duration.as_millis (d : Duration) : Nat := d.nanos / 1000000

/-- Which primitive `delay` dispatches to, with the argument it
passes. -/
inductive DelayPath where
  | udelay (micros : Nat)
  | mdelay (millis : Nat)
deriving DecidableEq, Repr

/-- `delay` (`src/time.rs:421-431`).  `none` models the
`expect("delay duration is too long")` panic of the failed
`u128 -> usize` conversion. -/
def delay (d : Duration) : Option DelayPath :=
  if d.as_micros < 1000 then some (.udelay d.as_micros)
  else if d.as_millis ≤ USIZE_MAX then some (.mdelay d.as_millis)
  else none

/-- `delay_ticks` as computed by `udelay`
(`ticks_per_10ms * micros / 10000`, `usize` arithmetic that cannot
overflow for the intended arguments). -/
def delayTicks (ticksPer10ms micros : Nat) : Nat :=
  ticksPer10ms * micros / 10000

/-- The busy-wait loop of `udelay`: `cur` is the entry reading of the
current-count register (`get 0`), and the loop re-reads the register
(`get j` for `j = 1, 2, ...`) while `cur - get j < dt`, returning the
index of the poll on which it exits.  Fuel bounds the number of polls
so the function is total; `none` models a loop that has not yet
exited. -/
def udelayLoop (dt cur : Nat) (get : Nat → Nat) : Nat → Nat → Option Nat
  | _, 0 => none
  | j, fuel + 1 => if cur - get j < dt then udelayLoop dt cur get (j + 1) fuel else some j

/-- `udelay` (`src/time.rs:390-405`): compute the tick threshold from
the stored calibration constant, read the current count once, and spin
on fresh reads of the (downward counting) current-count register. -/
def udelay (ticksPer10ms micros : Nat) (get : Nat → Nat) (fuel : Nat) : Option Nat :=
  udelayLoop (delayTicks ticksPer10ms micros) (get 0) get 1 fuel

/-- The inner wait of `mdelay` (and the analogous PIT-edge waits of
`calibrate_apic_timer`): save the IRQ counter reading at poll `i`,
then poll (with `hlt` in between) until a reading differs from the
saved one by at least `Wrapping(1)`.  Returns the index of the poll on
which the wait completed. -/
def waitAdvanceFrom (trace : Nat → Nat) (savedVal : Nat) : Nat → Nat → Option Nat
  | _, 0 => none
  | j, fuel + 1 =>
    if wrappingSub (trace j) savedVal < 1 then waitAdvanceFrom trace savedVal (j + 1) fuel
    else some j

/-- One iteration's wait in `mdelay`: read `curr_irq_cnt` at poll `i`,
then wait for the counter to advance. -/
def waitAdvance (trace : Nat → Nat) (i fuel : Nat) : Option Nat :=
  waitAdvanceFrom trace (trace i) (i + 1) fuel

/-- `mdelay` (`src/time.rs:408-418`) over a trace of `TIMER` readings:
while at least 10 ms remain, wait for one counter advance and subtract
10.  Returns the final poll index and the number of completed waits
(one wait per 10 ms unit). -/
def mdelayLoop (trace : Nat → Nat) (fuel : Nat) (i millis : Nat) : Option (Nat × Nat) :=
  if 10 ≤ millis then
    match waitAdvance trace i fuel with
    | none => none
    | some j =>
      match mdelayLoop trace fuel j (millis - 10) with
      | none => none
      | some p => some (p.1, p.2 + 1)
  else some (i, 0)
termination_by millis
decreasing_by omega

/-- The two mutable counter words of the kernel:
`crate::time::TIMER` (a `Wrapping<usize>`) and
`crate::interrupts::SCRATCH_TIMER` (a `usize`). -/
structure Counters where
  timer : Nat
  scratch : Nat
deriving DecidableEq, Repr

/-- `timer_interrupt_handler` (`src/interrupts.rs:104-112`): read
`TIMER`, write back the wrapping successor (the end-of-interrupt write
goes to the LAPIC, not to either counter). -/
def timer_interrupt_handler (c : Counters) : Counters :=
  { c with timer := wrappingAdd c.timer 1 }

/-- `scratch_timer_interrupt_handler` (`src/interrupts.rs:119-124`):
wrapping-increment `SCRATCH_TIMER` only. -/
def scratch_timer_interrupt_handler (c : Counters) : Counters :=
  { c with scratch := wrappingAdd c.scratch 1 }

----------------------------------------------------------------
-- Theorems

/-- The LAPIC register state `init_lapic` leaves behind: spurious
vector bit 8 set, all three local vector table entries masked. -/
def lapicReset : Lapic :=
  { svr := 0x100, lvtTimer := APIC_MASKED, lvtLint0 := APIC_MASKED
    lvtLint1 := APIC_MASKED, timerInitCnt := 0, timerDiv := 0 }

/-- A concrete state at entry to `calibrate_apic_timer`, as produced by
the bring-up sequence (`setup.rs`): LAPIC masked, PIT unprogrammed, the
PIT redirection entry holding the `Timer` vector, counter at zero,
interrupts off. -/
def calibEntryState : CalibState :=
  { lapic := lapicReset, pit := { command := 0, reloadLo := 0, reloadHi := 0 }
    ioapicPitLow := InterruptIndex.Timer.asU8, apicTicksIn10ms := 0
    timer := 0, interruptsOn := false }

/-- A concrete strictly decreasing current-count trace (a LAPIC timer
counting down at 500 ticks per poll from 5000). -/
def witGet (j : Nat) : Nat := 5000 - 500 * j

/-- C1: the stored ticks-per-10ms constant equals `u32::MAX` minus the
current-count value read after the second PIT edge, and the periodic
reprogramming writes exactly that constant to the initial-count
register (with the `Timer` vector and the periodic flag in the LVT). -/
theorem calibration_constant_and_reload (s : CalibState) (remaining : Nat)
    (h : remaining < U32_MOD) :
    (calibrate_apic_timer s remaining).apicTicksIn10ms = U32_MAX - remaining ∧
    (calibrate_apic_timer s remaining).lapic.timerInitCnt =
      (calibrate_apic_timer s remaining).apicTicksIn10ms ∧
    (calibrate_apic_timer s remaining).lapic.lvtTimer =
      InterruptIndex.Timer.asU8 ||| APIC_TIMER_PERIODIC := by
  have h32 : remaining < 4294967296 := by simpa [U32_MOD] using h
  refine ⟨?_, ?_, ?_⟩ <;>
    simp [calibrate_apic_timer, calibMeasure, calibRetireAndArm, configurePit,
      prepareLapicTimer, Lapic.write_register, LAPIC_LVT_TIMER_REG,
      LAPIC_LVT_LINT0_REG, LAPIC_LVT_LINT1_REG, LAPIC_TIMER_INITCNT_REG,
      LAPIC_TIMER_DIV_REG, InterruptIndex.asU8,
      APIC_TIMER_PERIODIC, U32_MOD, U32_MAX] <;>
    omega

/-- Witness for the calibration theorem at a concrete entry state and a
concrete current-count reading of 1000. -/
theorem calibration_constant_and_reload_witness :
    (1000 : Nat) < U32_MOD ∧
    ((calibrate_apic_timer calibEntryState 1000).apicTicksIn10ms = U32_MAX - 1000 ∧
      (calibrate_apic_timer calibEntryState 1000).lapic.timerInitCnt =
        (calibrate_apic_timer calibEntryState 1000).apicTicksIn10ms ∧
      (calibrate_apic_timer calibEntryState 1000).lapic.lvtTimer =
        InterruptIndex.Timer.asU8 ||| APIC_TIMER_PERIODIC) :=
  ⟨by decide, calibration_constant_and_reload calibEntryState 1000 (by decide)⟩

/-- The mask bit of every entry rewritten by the non-matching branch of
`init_ioapic` is set. -/
theorem maskEntry_testBit (e : RedirEntry) : (maskEntry e).low.testBit 16 = true := by
  have h : (maskEntry e).low = (e.low ||| 1 <<< 16) % 2 ^ 32 := rfl
  have h16 : (1 <<< 16 : Nat).testBit 16 = true := by decide
  rw [h, Nat.testBit_mod_two_pow, Nat.testBit_lor, h16]
  simp

/-- The entry written for the PIT holds the `Timer` vector, whose
mask bit (bit 16) is clear. -/
theorem timerRedirEntry_testBit (bsp : Nat) :
    (timerRedirEntry bsp).low.testBit 16 = false := by
  simp only [timerRedirEntry, InterruptIndex.asU8]
  decide

/-- Programming the entries of one I/O APIC commutes with flattening
them alongside their global interrupt numbers. -/
theorem gsiEntries_progEntries (base ov bsp : Nat) (es : List RedirEntry) :
    ∀ j, gsiEntries base j (progEntries base ov bsp j es) =
      (gsiEntries base j es).map
        (fun q => (q.1, if q.1 = ov then timerRedirEntry bsp else maskEntry q.2)) := by
  induction es with
  | nil => intro j; rfl
  | cons e rest ih =>
    intro j
    simp only [gsiEntries, progEntries, progEntry, List.map_cons, ih (j + 1)]
    rw [Nat.add_comm j base]

/-- `init_ioapic` acts independently on each redirection entry: the one
whose global interrupt number matches the override is replaced by the
PIT entry, every other entry gets its mask bit set. -/
theorem redirTable_init_ioapic (apics : List IoApicDev) (ov bsp : Nat) :
    redirTable (init_ioapic apics ov bsp) =
      (redirTable apics).map
        (fun q => (q.1, if q.1 = ov then timerRedirEntry bsp else maskEntry q.2)) := by
  induction apics with
  | nil => rfl
  | cons d rest ih =>
    simp only [init_ioapic, List.map_cons, redirTable, List.map_append] at *
    rw [ih]
    simp [IoApicDev.program, gsiEntries_progEntries]

/-- C3: given that exactly one redirection entry's global interrupt
number equals the ISA-IRQ-0 remap target, after `init_ioapic` exactly
one redirection entry across all I/O APICs is unmasked; the matching
entry holds exactly the periodic-timer vector (hence is unmasked), and
every non-matching entry has its mask bit set. -/
theorem ioapic_exactly_one_unmasked (apics : List IoApicDev) (ov bsp : Nat)
    (h : (redirTable apics).countP (fun q => q.1 == ov) = 1) :
    (redirTable (init_ioapic apics ov bsp)).countP
        (fun p => !(p.2.low.testBit 16)) = 1 ∧
    ∀ p ∈ redirTable (init_ioapic apics ov bsp),
      (p.1 = ov → p.2.low = InterruptIndex.Timer.asU8) ∧
      (p.1 ≠ ov → p.2.low.testBit 16 = true) := by
  rw [redirTable_init_ioapic]
  constructor
  · rw [List.countP_map, ← h]
    apply List.countP_congr
    intro q hq
    by_cases hc : q.1 = ov <;>
      simp [hc, Function.comp, timerRedirEntry_testBit, maskEntry_testBit]
  · intro p hp
    obtain ⟨q, hq, rfl⟩ := List.mem_map.mp hp
    by_cases hc : q.1 = ov <;>
      simp [hc, timerRedirEntry, maskEntry_testBit, InterruptIndex.asU8]

/-- Witness for the I/O APIC theorem: one I/O APIC with three entries,
override at global interrupt 1, boot processor id 2. -/
theorem ioapic_exactly_one_unmasked_witness :
    (redirTable [⟨0, [⟨0, 0⟩, ⟨0, 0⟩, ⟨0, 0⟩]⟩]).countP (fun q => q.1 == 1) = 1 ∧
    ((redirTable (init_ioapic [⟨0, [⟨0, 0⟩, ⟨0, 0⟩, ⟨0, 0⟩]⟩] 1 2)).countP
        (fun p => !(p.2.low.testBit 16)) = 1 ∧
      ∀ p ∈ redirTable (init_ioapic [⟨0, [⟨0, 0⟩, ⟨0, 0⟩, ⟨0, 0⟩]⟩] 1 2),
        (p.1 = 1 → p.2.low = InterruptIndex.Timer.asU8) ∧
        (p.1 ≠ 1 → p.2.low.testBit 16 = true)) :=
  ⟨by decide, ioapic_exactly_one_unmasked [⟨0, [⟨0, 0⟩, ⟨0, 0⟩, ⟨0, 0⟩]⟩] 1 2 (by decide)⟩

/-- C2 counterexample: on a concrete platform with one I/O APIC whose
two entries both start masked (hardware reset state), the entry that
matches the ISA-IRQ-0 remap (global interrupt 0) comes out of
`init_ioapic` with its mask bit already clear — the bare-vector write
unmasks it — contradicting that it "has not been unmasked"; and the
measuring phase of `calibrate_apic_timer` (which contains step 1, the
PIT programming) never writes the entry, so the calibration protocol
performs no unmasking. -/
theorem ioapic_pit_entry_cex :
    init_ioapic [⟨0, [⟨APIC_MASKED, 0⟩, ⟨APIC_MASKED, 0⟩]⟩] 0 1 =
      [⟨0, [⟨32, 16777216⟩, ⟨65536, 0⟩]⟩] ∧
    (32 : Nat).testBit 16 = false ∧
    (calibMeasure calibEntryState 77).ioapicPitLow = calibEntryState.ioapicPitLow := by
  refine ⟨by decide, by decide, rfl⟩

/-- C2 (amended): after `init_ioapic`, the redirection entry matching
the ISA-IRQ-0 remap holds exactly the periodic-timer vector with the
boot-processor id in the destination bits of the high word, and its
mask bit is already clear (the entry is unmasked at bring-up); the
calibration protocol never unmasks it — through step 7 it leaves the
entry untouched, and its only write to it (step 8) masks it. -/
theorem ioapic_pit_entry_programmed (apics : List IoApicDev) (ov bsp : Nat)
    (p : Nat × RedirEntry)
    (hp : p ∈ redirTable (init_ioapic apics ov bsp)) (hov : p.1 = ov) :
    p.2.low = InterruptIndex.Timer.asU8 ∧
    p.2.high = (bsp <<< 24) % U32_MOD ∧
    p.2.low.testBit 16 = false ∧
    (∀ s r, (calibMeasure s r).ioapicPitLow = s.ioapicPitLow) ∧
    (∀ s r, (calibrate_apic_timer s r).ioapicPitLow = APIC_MASKED) := by
  rw [redirTable_init_ioapic] at hp
  obtain ⟨q, hq, hpe⟩ := List.mem_map.mp hp
  have hq1 : q.1 = ov := by
    by_contra hne
    rw [← hpe] at hov
    simp [hne] at hov
  rw [← hpe]
  simp only [hq1, if_pos rfl]
  refine ⟨rfl, rfl, timerRedirEntry_testBit bsp, fun s r => rfl, fun s r => rfl⟩

/-- Witness for the amended C2 theorem on the concrete platform of the
counterexample. -/
theorem ioapic_pit_entry_programmed_witness :
    (0, RedirEntry.mk 32 16777216) ∈
      redirTable (init_ioapic [⟨0, [⟨APIC_MASKED, 0⟩, ⟨APIC_MASKED, 0⟩]⟩] 0 1) ∧
    (0, RedirEntry.mk 32 16777216).1 = 0 ∧
    ((0, RedirEntry.mk 32 16777216).2.low = InterruptIndex.Timer.asU8 ∧
      (0, RedirEntry.mk 32 16777216).2.high = (1 <<< 24) % U32_MOD ∧
      (0, RedirEntry.mk 32 16777216).2.low.testBit 16 = false ∧
      (∀ s r, (calibMeasure s r).ioapicPitLow = s.ioapicPitLow) ∧
      (∀ s r, (calibrate_apic_timer s r).ioapicPitLow = APIC_MASKED)) :=
  ⟨by decide, rfl,
    ioapic_pit_entry_programmed [⟨0, [⟨APIC_MASKED, 0⟩, ⟨APIC_MASKED, 0⟩]⟩] 0 1
      (0, RedirEntry.mk 32 16777216) (by decide) rfl⟩

/-- C4 counterexample: starting from the concrete bring-up entry state
(whose LVT timer register is masked), after calibration step 2 the LVT
timer register holds just the scratch vector, so its mask bit is clear
— the claim that the entry "is left masked (the mask bit set)" is
false. -/
theorem scratch_lvt_mask_cex :
    (prepareLapicTimer (configurePit calibEntryState)).lapic.lvtTimer.testBit 16 = false := by
  decide

/-- C4 (amended): calibration step 2 writes the LVT timer register with
exactly the calibration-only scratch vector (distinct from the
periodic-timer vector) and sets the fixed divide value 3 (divide by
16); the written LVT word has its mask bit clear, and the timer is
unarmed only in the sense that the initial-count register is untouched
until step 5 writes it. -/
theorem scratch_lvt_programmed (s : CalibState) :
    (prepareLapicTimer (configurePit s)).lapic.lvtTimer = InterruptIndex.ScratchTimer.asU8 ∧
    InterruptIndex.ScratchTimer.asU8 ≠ InterruptIndex.Timer.asU8 ∧
    (prepareLapicTimer (configurePit s)).lapic.lvtTimer.testBit 16 = false ∧
    (prepareLapicTimer (configurePit s)).lapic.timerDiv = 3 ∧
    (prepareLapicTimer (configurePit s)).lapic.timerInitCnt = s.lapic.timerInitCnt := by
  refine ⟨?_, by decide, ?_, ?_, ?_⟩ <;>
    simp [prepareLapicTimer, configurePit, Lapic.write_register, InterruptIndex.asU8,
      U32_MOD, LAPIC_LVT_TIMER_REG, LAPIC_LVT_LINT0_REG, LAPIC_LVT_LINT1_REG,
      LAPIC_TIMER_INITCNT_REG, LAPIC_TIMER_DIV_REG] <;>
    decide

/-- C5 counterexample: a 1500-microsecond duration takes the
millisecond path and is not a whole number of milliseconds, yet `delay`
does not abort — it silently truncates to `mdelay(1)`. -/
theorem delay_truncates_cex :
    delay ⟨1500000⟩ = some (DelayPath.mdelay 1) ∧
    1000 ≤ Duration.as_micros ⟨1500000⟩ ∧
    ¬ (1500000 % 1000000 = 0) := by
  refine ⟨by decide, by decide, by decide⟩

/-- C5 (amended): durations strictly under 1000 microseconds take the
sub-millisecond path with the microsecond count; every other duration
takes the millisecond path with the duration truncated to whole
milliseconds (the floor of the microsecond count over 1000); the only
fatal rejection is a millisecond count that does not fit the machine
word (`usize`). -/
theorem delay_dispatch (d e f : Duration)
    (h1 : d.as_micros < 1000)
    (h2 : 1000 ≤ e.as_micros) (h3 : e.as_millis ≤ USIZE_MAX)
    (h4 : USIZE_MAX < f.as_millis) :
    delay d = some (DelayPath.udelay d.as_micros) ∧
    delay e = some (DelayPath.mdelay e.as_millis) ∧
    e.as_millis = e.as_micros / 1000 ∧
    delay f = none := by
  refine ⟨?_, ?_, ?_, ?_⟩
  · simp [delay, h1]
  · simp [delay, Nat.not_lt.mpr h2, h3]
  · simp [Duration.as_millis, Duration.as_micros, Nat.div_div_eq_div_mul]
  · have hf : ¬ f.as_micros < 1000 := by
      simp only [Duration.as_micros, Duration.as_millis, USIZE_MAX] at *
      omega
    simp [delay, hf, Nat.not_le.mpr h4]

/-- Witness for the delay dispatch theorem: 500 microseconds, 2.5
milliseconds, and a duration of `2^64` milliseconds that overflows the
`usize` conversion. -/
theorem delay_dispatch_witness :
    Duration.as_micros ⟨500000⟩ < 1000 ∧
    1000 ≤ Duration.as_micros ⟨2500000⟩ ∧
    Duration.as_millis ⟨2500000⟩ ≤ USIZE_MAX ∧
    USIZE_MAX < Duration.as_millis ⟨18446744073709551616000000⟩ ∧
    (delay ⟨500000⟩ = some (DelayPath.udelay 500) ∧
      delay ⟨2500000⟩ = some (DelayPath.mdelay 2) ∧
      Duration.as_millis ⟨2500000⟩ = Duration.as_micros ⟨2500000⟩ / 1000 ∧
      delay ⟨18446744073709551616000000⟩ = none) := by
  refine ⟨by decide, by decide, by decide, by decide, ?_⟩
  exact delay_dispatch ⟨500000⟩ ⟨2500000⟩ ⟨18446744073709551616000000⟩
    (by decide) (by decide) (by decide) (by decide)

/-- Soundness and minimality of the `udelay` spin loop: if it exits at
poll `k`, the entry reading minus the reading at `k` has reached the
threshold, and at every earlier poll it had not. -/
theorem udelayLoop_spec (dt cur : Nat) (get : Nat → Nat) :
    ∀ fuel j k, udelayLoop dt cur get j fuel = some k →
      dt ≤ cur - get k ∧ ∀ i, j ≤ i → i < k → cur - get i < dt := by
  intro fuel
  induction fuel with
  | zero => intro j k h; simp [udelayLoop] at h
  | succ n ih =>
    intro j k h
    simp only [udelayLoop] at h
    by_cases hc : cur - get j < dt
    · rw [if_pos hc] at h
      obtain ⟨h1, h2⟩ := ih (j + 1) k h
      refine ⟨h1, fun i hji hik => ?_⟩
      rcases Nat.eq_or_lt_of_le hji with he | hl
      · rw [← he]; exact hc
      · exact h2 i hl hik
    · rw [if_neg hc] at h
      obtain rfl : j = k := Option.some.inj h
      exact ⟨Nat.le_of_not_lt hc,
        fun i hji hik => absurd (Nat.lt_of_le_of_lt hji hik) (Nat.lt_irrefl _)⟩

/-- C6: for a sub-millisecond duration, `udelay` polls the LAPIC
current-count register (whose readings `get` count down, so the
comparison direction is entry-reading minus fresh reading) and exits
only once at least `ticks_per_10ms * micros / 10000` ticks have elapsed
since entry — at every earlier poll fewer ticks had elapsed. -/
theorem udelay_waits_enough (t m : Nat) (get : Nat → Nat) (fuel k : Nat)
    (hm : m < 1000)
    (hmono : ∀ j, get (j + 1) ≤ get j)
    (hexit : udelay t m get fuel = some k) :
    delayTicks t m ≤ get 0 - get k ∧
    ∀ j, 1 ≤ j → j < k → get 0 - get j < delayTicks t m :=
  udelayLoop_spec (delayTicks t m) (get 0) get fuel 1 k hexit

/-- Witness for the `udelay` theorem: 500 microseconds with a
calibration constant of 20000 ticks per 10 ms against the concrete
countdown trace `witGet`; the loop exits on poll 2. -/
theorem udelay_waits_enough_witness :
    (500 : Nat) < 1000 ∧
    (∀ j, witGet (j + 1) ≤ witGet j) ∧
    udelay 20000 500 witGet 10 = some 2 ∧
    (delayTicks 20000 500 ≤ witGet 0 - witGet 2 ∧
      ∀ j, 1 ≤ j → j < 2 → witGet 0 - witGet j < delayTicks 20000 500) :=
  ⟨by decide, fun j => by simp only [witGet]; omega, by decide,
    udelay_waits_enough 20000 500 witGet 10 2 (by decide)
      (fun j => by simp only [witGet]; omega) (by decide)⟩

/-- The `mdelay` outer loop completes exactly `millis / 10` waits, one
per full 10 ms unit of the requested duration. -/
theorem mdelayLoop_count (trace : Nat → Nat) (fuel : Nat) :
    ∀ millis i j s, mdelayLoop trace fuel i millis = some (j, s) → s = millis / 10 := by
  intro millis
  induction millis using Nat.strong_induction_on with
  | _ millis ih =>
    intro i j s h
    unfold mdelayLoop at h
    by_cases hc : 10 ≤ millis
    · rw [if_pos hc] at h
      cases hw : waitAdvance trace i fuel with
      | none => rw [hw] at h; simp at h
      | some j2 =>
        rw [hw] at h
        dsimp only at h
        cases hrec : mdelayLoop trace fuel j2 (millis - 10) with
        | none => rw [hrec] at h; simp at h
        | some p =>
          obtain ⟨p1, p2⟩ := p
          rw [hrec] at h
          simp at h
          have hp2 := ih (millis - 10) (by omega) j2 p1 p2 hrec
          omega
    · rw [if_neg hc] at h
      simp at h
      omega

/-- C7: for a whole-millisecond duration, `mdelay` waits — halting the
processor between polls — for the main tick counter to advance exactly
`floor(millis / 10)` times, one advance per completed 10 ms unit. -/
theorem mdelay_step_count (trace : Nat → Nat) (fuel i millis j s : Nat)
    (hms : 1 ≤ millis)
    (h : mdelayLoop trace fuel i millis = some (j, s)) :
    s = millis / 10 :=
  mdelayLoop_count trace fuel millis i j s h

/-- Witness for the `mdelay` theorem: 25 ms against a tick counter that
advances on every poll; the loop completes 2 waits. -/
theorem mdelay_step_count_witness :
    (1 : Nat) ≤ 25 ∧
    mdelayLoop (fun j => j) 3 0 25 = some (2, 2) ∧
    (2 : Nat) = 25 / 10 := by
  have heval : mdelayLoop (fun j => j) 3 0 25 = some (2, 2) := by
    simp [mdelayLoop, waitAdvance, waitAdvanceFrom, wrappingSub, USIZE_MOD]
  exact ⟨by decide, heval, mdelay_step_count (fun j => j) 3 0 25 2 2 (by decide) heval⟩

/-- C8: the tick counter wraps modulo its word width: the handler
increment at the maximum representable value yields zero, and the
wraparound-safe subtraction used for the tick-counter comparisons gives
zero minus max equal to 1. -/
theorem tick_counter_wraparound :
    (timer_interrupt_handler { timer := USIZE_MAX, scratch := 0 }).timer = 0 ∧
    wrappingSub 0 USIZE_MAX = 1 := by
  refine ⟨?_, ?_⟩ <;> decide

/-- C9: the main tick counter has a single writer: the periodic-timer
handler wrapping-increments it and touches nothing else; the
calibration-scratch handler increments only the scratch counter and
leaves the tick counter unchanged; and `calibrate_apic_timer` — the
only non-handler code path during whose run the counter is live — never
writes it (its PIT-edge waits are pure reads).  The remaining embedded
operations (`init_ioapic`, `delay`, `udelay`, `mdelay`) are read-only
by construction: their types carry no counter state to mutate. -/
theorem timer_single_writer (c : Counters) (s : CalibState) (r : Nat) :
    (timer_interrupt_handler c).timer = wrappingAdd c.timer 1 ∧
    (timer_interrupt_handler c).scratch = c.scratch ∧
    (scratch_timer_interrupt_handler c).timer = c.timer ∧
    (scratch_timer_interrupt_handler c).scratch = wrappingAdd c.scratch 1 ∧
    (calibrate_apic_timer s r).timer = s.timer :=
  ⟨rfl, rfl, rfl, rfl, rfl⟩

/-- The `mdelay` loop ignores the sub-10 ms remainder of its argument:
it behaves exactly as on the duration rounded down to a multiple of
10 ms. -/
theorem mdelayLoop_drops_remainder (trace : Nat → Nat) (fuel : Nat) :
    ∀ millis i, mdelayLoop trace fuel i millis =
      mdelayLoop trace fuel i (10 * (millis / 10)) := by
  intro millis
  induction millis using Nat.strong_induction_on with
  | _ millis ih =>
    intro i
    by_cases hc : 10 ≤ millis
    · have hc2 : 10 ≤ 10 * (millis / 10) := by omega
      unfold mdelayLoop
      rw [if_pos hc, if_pos hc2]
      cases hw : waitAdvance trace i fuel with
      | none => rfl
      | some j =>
        dsimp only
        have h1 : 10 * (millis / 10) - 10 = 10 * ((millis - 10) / 10) := by omega
        rw [h1, ih (millis - 10) (by omega) j]
    · have hz : 10 * (millis / 10) = 0 := by omega
      rw [hz]
      unfold mdelayLoop
      rw [if_neg hc, if_neg (by omega : ¬ 10 ≤ 0)]

/-- C10: a duration of at least 1000 microseconds whose whole
millisecond count is below 10 dispatches to the millisecond path, which
returns immediately — zero completed waits and no polls (the final poll
index is the entry index); and in general the loop drops any sub-10 ms
remainder rather than waiting it out. -/
theorem short_millis_delay_immediate (d : Duration) (trace : Nat → Nat) (fuel i : Nat)
    (h1 : 1000 ≤ d.as_micros) (h2 : d.as_millis < 10) :
    delay d = some (DelayPath.mdelay d.as_millis) ∧
    mdelayLoop trace fuel i d.as_millis = some (i, 0) ∧
    ∀ m, mdelayLoop trace fuel i m = mdelayLoop trace fuel i (10 * (m / 10)) := by
  refine ⟨?_, ?_, fun m => mdelayLoop_drops_remainder trace fuel m i⟩
  · have hle : d.as_millis ≤ USIZE_MAX := by
      have : (10 : Nat) ≤ USIZE_MAX := by decide
      omega
    simp [delay, Nat.not_lt.mpr h1, hle]
  · unfold mdelayLoop
    rw [if_neg (by omega)]

/-- Witness for the short-duration theorem: 5 ms (5000 microseconds). -/
theorem short_millis_delay_immediate_witness :
    1000 ≤ Duration.as_micros ⟨5000000⟩ ∧
    Duration.as_millis ⟨5000000⟩ < 10 ∧
    (delay ⟨5000000⟩ = some (DelayPath.mdelay (Duration.as_millis ⟨5000000⟩)) ∧
      mdelayLoop (fun _ => 0) 0 7 (Duration.as_millis ⟨5000000⟩) = some (7, 0) ∧
      ∀ m, mdelayLoop (fun _ => 0) 0 7 m =
        mdelayLoop (fun _ => 0) 0 7 (10 * (m / 10))) :=
  ⟨by decide, by decide,
    short_millis_delay_immediate ⟨5000000⟩ (fun _ => 0) 0 7 (by decide) (by decide)⟩
